import Mathlib

/-!
Verification of the message codec (`src/msg/mod.rs`, `src/error.rs`) and the
I/O dispatcher (`src/bridge/io/dispatcher/mod.rs`) of the bubmlebees crate.

The byte-oriented codec is embedded shallowly: a byte stream is a `List Nat`
whose elements are byte values, writers produce such lists, and readers are
functions `List Nat → Except Err (α × List Nat)` returning the decoded value
together with the unconsumed suffix of the stream.  End-of-stream during a
read surfaces as `Err.BufferUnsatisfied`, mirroring
`impl From<std::io::Error> for Error`, which maps `UnexpectedEof` to
`Error::BufferUnsatisfied`.  Machine integers are natural numbers reduced
modulo `2^w` exactly where the Rust code truncates (`as u16`, wrapping adds).
-/

namespace Bumblebees

/-- The error enumeration of `src/error.rs`, restricted to the variants the
codec and the dispatcher raise. -/
inductive Err where
  | BufferUnsatisfied
  | ZeroPipeId
  | PayloadTooLarge (length maximum : Nat)
  | LossRateTooBig (loss maximum : Nat)
  | IllegalControlType (value : Nat)
  | TooManySockets (maximum : Nat)
  deriving DecidableEq, Repr

/-- A byte stream: a list of byte values. -/
abbrev Bytes := List Nat

instance {ε α : Type} [DecidableEq ε] [DecidableEq α] :
    DecidableEq (Except ε α) := fun x y =>
  match x, y with
  | .ok a, .ok b =>
    if h : a = b then .isTrue (by rw [h])
    else .isFalse (by intro hc; cases hc; exact h rfl)
  | .ok _, .error _ => .isFalse (by intro hc; cases hc)
  | .error _, .ok _ => .isFalse (by intro hc; cases hc)
  | .error e, .error e' =>
    if h : e = e' then .isTrue (by rw [h])
    else .isFalse (by intro hc; cases hc; exact h rfl)

/-- A decoder over a byte stream: it either consumes a prefix of the input and
returns the decoded value with the rest, or fails. -/
def Dec (α : Type) : Type := Bytes → Except Err (α × Bytes)

/-- Decoder that consumes nothing (`Ok(value)` in the source). -/
def Dec.pure (a : α) : Dec α := fun input => .ok (a, input)

/-- Sequencing of two decoders (the `?` operator in the source). -/
def Dec.bind (p : Dec α) (f : α → Dec β) : Dec β := fun input =>
  match p input with
  | .ok (a, rest) => f a rest
  | .error e => .error e

/-- Decoder that fails outright (an `Err(..)` return in the source). -/
def Dec.fail (e : Err) : Dec α := fun _ => .error e

/-- `read_exact` on a byte stream: take `n` bytes, or report end-of-stream,
which the `From<std::io::Error>` conversion turns into `BufferUnsatisfied`. -/
def readBytes (n : Nat) : Dec Bytes := fun input =>
  if n ≤ input.length then .ok (input.take n, input.drop n)
  else .error .BufferUnsatisfied

/-- Little-endian encoding of `v` on `w` bytes (`byteorder::LittleEndian`
writes); values too wide for `w` bytes are truncated, as the Rust integer
types do. -/
def toLE : Nat → Nat → Bytes
  | 0, _ => []
  | w + 1, v => v % 256 :: toLE w (v / 256)

/-- Little-endian value of a byte list (`byteorder::LittleEndian` reads). -/
def fromLE : Bytes → Nat
  | [] => 0
  | b :: bs => b + 256 * fromLE bs

/-- Shared shape of `read_u8 .. read_u128`: read `w` bytes, combine them
little-endian. -/
def readLE (w : Nat) : Dec Nat :=
  Dec.bind (readBytes w) fun bs => Dec.pure (fromLE bs)

def read_u8 : Dec Nat := readLE 1
def read_u16 : Dec Nat := readLE 2
def read_u32 : Dec Nat := readLE 4
def read_u64 : Dec Nat := readLE 8
def read_u128 : Dec Nat := readLE 16

def write_u8 (v : Nat) : Bytes := toLE 1 v
def write_u16 (v : Nat) : Bytes := toLE 2 v
def write_u32 (v : Nat) : Bytes := toLE 4 v
def write_u64 (v : Nat) : Bytes := toLE 8 v
def write_u128 (v : Nat) : Bytes := toLE 16 v

/-- `write_bin`: a `u16` length prefix (note the truncating `as u16` cast on
`value.len()`) followed by the raw bytes. -/
def write_bin (v : Bytes) : Bytes := write_u16 v.length ++ v

/-- `read_bin`: read a `u16` length, then exactly that many bytes. -/
def read_bin : Dec Bytes := Dec.bind read_u16 fun n => readBytes n

/-- `MAX_PAYLOAD_SIZE` from `src/msg/mod.rs`. -/
def MAX_PAYLOAD_SIZE : Nat := 0xEFFF

/-- `MAX_LOSS_RATE` from `src/msg/mod.rs`. -/
def MAX_LOSS_RATE : Nat := 0x7F

/-- `verify_pipe_id` from `src/msg/mod.rs`. -/
def verify_pipe_id (pipe_id : Nat) : Except Err Unit :=
  if pipe_id = 0 then .error .ZeroPipeId else .ok ()

/-- The `Open` message.  `pipe_id`, `function_id` are `u16`, `priority` is
`u8`; the corresponding range conditions appear as hypotheses where needed. -/
structure Open where
  pipe_id : Nat
  function_id : Nat
  priority : Nat
  params : Bytes
  deriving DecidableEq, Repr

def Open.new (pipe_id function_id priority : Nat) (params : Bytes) :
    Except Err Open :=
  match verify_pipe_id pipe_id with
  | .error e => .error e
  | .ok _ => .ok { pipe_id, function_id, priority, params }

def Open.write_to (m : Open) : Bytes :=
  write_u16 m.pipe_id ++ write_u16 m.function_id ++ write_u8 m.priority ++
    write_bin m.params

def Open.read_from : Dec Open :=
  Dec.bind read_u16 fun pipe_id =>
  Dec.bind read_u16 fun function_id =>
  Dec.bind read_u8 fun priority =>
  Dec.bind read_bin fun params =>
  Dec.pure { pipe_id, function_id, priority, params }

/-- The `Close` message. -/
structure Close where
  pipe_id : Nat
  failure : Bool
  result : Bytes
  deriving DecidableEq, Repr

def Close.new (pipe_id : Nat) (failure : Bool) (result : Bytes) :
    Except Err Close :=
  match verify_pipe_id pipe_id with
  | .error e => .error e
  | .ok _ => .ok { pipe_id, failure, result }

def Close.write_to (m : Close) : Bytes :=
  write_u16 m.pipe_id ++ write_u8 (if m.failure then 1 else 0) ++
    write_bin m.result

def Close.read_from : Dec Close :=
  Dec.bind read_u16 fun pipe_id =>
  Dec.bind read_u8 fun bit_field =>
  Dec.bind read_bin fun result =>
  Dec.pure { pipe_id, failure := bit_field &&& 1 != 0, result }

/-- The `Block` message. -/
structure Block where
  pipe_id : Nat
  eof : Bool
  loss : Nat
  payload : Bytes
  deriving DecidableEq, Repr

def Block.new (pipe_id : Nat) (eof : Bool) (loss : Nat) (payload : Bytes) :
    Except Err Block :=
  match verify_pipe_id pipe_id with
  | .error e => .error e
  | .ok _ =>
    if payload.length > MAX_PAYLOAD_SIZE then
      .error (.PayloadTooLarge payload.length MAX_PAYLOAD_SIZE)
    else if loss > MAX_LOSS_RATE then
      .error (.LossRateTooBig loss MAX_LOSS_RATE)
    else
      .ok { pipe_id, eof, loss, payload }

def Block.write_to (m : Block) : Bytes :=
  write_u16 m.pipe_id ++
    write_u8 (m.loss ||| if m.eof then 128 else 0) ++
    write_bin m.payload

def Block.read_from : Dec Block :=
  Dec.bind read_u16 fun pipe_id =>
  Dec.bind read_u8 fun bit_field =>
  Dec.bind read_bin fun payload =>
  Dec.pure { pipe_id, eof := bit_field &&& 128 != 0,
             loss := bit_field &&& 127, payload }

/-- The `Control` message.  The two `Uuid` fields travel as their `u128`
value (`Uuid::as_u128` on write, `Uuid::from_u128` on read). -/
inductive Control where
  | SystemConfig (version node_id session_id utc_time ping_interval
      session_timeout : Nat)
  | Ping (utc_time : Nat)
  deriving DecidableEq, Repr

/-- `ID_CTRL_SYSCONFIG = 'Q'`. -/
def ID_CTRL_SYSCONFIG : Nat := 0x51

/-- `ID_CTRL_PING = 'P'`. -/
def ID_CTRL_PING : Nat := 0x50

def Control.new_system_config (version node_id session_id utc_time
    ping_interval session_timeout : Nat) : Except Err Control :=
  .ok (.SystemConfig version node_id session_id utc_time ping_interval
    session_timeout)

def Control.new_ping (utc_time : Nat) : Except Err Control :=
  .ok (.Ping utc_time)

def Control.write_to : Control → Bytes
  | .SystemConfig version node_id session_id utc_time ping_interval
      session_timeout =>
    write_u8 ID_CTRL_SYSCONFIG ++ write_u16 version ++ write_u128 node_id ++
      write_u128 session_id ++ write_u64 utc_time ++
      write_u32 ping_interval ++ write_u32 session_timeout
  | .Ping utc_time => write_u8 ID_CTRL_PING ++ write_u64 utc_time

def Control.read_from : Dec Control :=
  Dec.bind read_u8 fun tag =>
  if tag = ID_CTRL_SYSCONFIG then
    Dec.bind read_u16 fun version =>
    Dec.bind read_u128 fun node_id =>
    Dec.bind read_u128 fun session_id =>
    Dec.bind read_u64 fun utc_time =>
    Dec.bind read_u32 fun ping_interval =>
    Dec.bind read_u32 fun session_timeout =>
    Dec.pure (.SystemConfig version node_id session_id utc_time ping_interval
      session_timeout)
  else if tag = ID_CTRL_PING then
    Dec.bind read_u64 fun utc_time => Dec.pure (.Ping utc_time)
  else
    Dec.fail (.IllegalControlType tag)

/-! ### Little-endian encoding lemmas -/

theorem toLE_length (w v : Nat) : (toLE w v).length = w := by
  induction w generalizing v with
  | zero => simp [toLE]
  | succ w ih => simp [toLE, ih]

theorem fromLE_toLE (w v : Nat) : fromLE (toLE w v) = v % 256 ^ w := by
  induction w generalizing v with
  | zero => simp [toLE, fromLE, Nat.mod_one]
  | succ w ih =>
    have h : (256 : Nat) ^ (w + 1) = 256 * 256 ^ w := by ring
    rw [toLE, fromLE, ih, h, Nat.mod_mul]

theorem toLE_mod (w v : Nat) : toLE w (v % 256 ^ w) = toLE w v := by
  induction w generalizing v with
  | zero => simp [toLE]
  | succ w ih =>
    have h : (256 : Nat) ^ (w + 1) = 256 * 256 ^ w := by ring
    rw [toLE, toLE, h, Nat.mod_mod_of_dvd v ⟨256 ^ w, rfl⟩,
      Nat.mod_mul_right_div_self, ih]

/-! ### Reader success and failure shapes -/

theorem readBytes_append (cs ws : Bytes) :
    readBytes cs.length (cs ++ ws) = .ok (cs, ws) := by
  rw [readBytes, if_pos (by simp)]
  rw [List.take_left, List.drop_left]

theorem Dec.bind_ok_rw {p : Dec α} {f : α → Dec β} {input rest : Bytes}
    {a : α} (h : p input = .ok (a, rest)) : Dec.bind p f input = f a rest := by
  simp only [Dec.bind]
  rw [h]

theorem Dec.bind_err_rw {p : Dec α} {f : α → Dec β} {input : Bytes} {e : Err}
    (h : p input = .error e) : Dec.bind p f input = .error e := by
  simp only [Dec.bind]
  rw [h]

theorem Dec.bind_eq_ok {p : Dec α} {f : α → Dec β} {input : Bytes}
    {r : β × Bytes} (h : Dec.bind p f input = .ok r) :
    ∃ a rest, p input = .ok (a, rest) ∧ f a rest = .ok r := by
  cases hp : p input with
  | error e => simp [Dec.bind, hp] at h
  | ok ar =>
    obtain ⟨a, rest⟩ := ar
    refine ⟨a, rest, rfl, ?_⟩
    simpa [Dec.bind, hp] using h

theorem readLE_append (w v : Nat) (ws : Bytes) :
    readLE w (toLE w v ++ ws) = .ok (v % 256 ^ w, ws) := by
  have h : readBytes w (toLE w v ++ ws) = .ok (toLE w v, ws) := by
    have := readBytes_append (toLE w v) ws
    rwa [toLE_length] at this
  rw [readLE, Dec.bind_ok_rw h, Dec.pure, fromLE_toLE]

theorem read_u8_append (v : Nat) (ws : Bytes) :
    read_u8 (toLE 1 v ++ ws) = .ok (v % 2 ^ 8, ws) := by
  have h := readLE_append 1 v ws
  norm_num at h ⊢
  exact h

theorem read_u16_append (v : Nat) (ws : Bytes) :
    read_u16 (toLE 2 v ++ ws) = .ok (v % 2 ^ 16, ws) := by
  have h := readLE_append 2 v ws
  norm_num at h ⊢
  exact h

theorem read_u32_append (v : Nat) (ws : Bytes) :
    read_u32 (toLE 4 v ++ ws) = .ok (v % 2 ^ 32, ws) := by
  have h := readLE_append 4 v ws
  norm_num at h ⊢
  exact h

theorem read_u64_append (v : Nat) (ws : Bytes) :
    read_u64 (toLE 8 v ++ ws) = .ok (v % 2 ^ 64, ws) := by
  have h := readLE_append 8 v ws
  norm_num at h ⊢
  exact h

theorem read_u128_append (v : Nat) (ws : Bytes) :
    read_u128 (toLE 16 v ++ ws) = .ok (v % 2 ^ 128, ws) := by
  have h := readLE_append 16 v ws
  norm_num at h ⊢
  exact h

theorem read_bin_append (v ws : Bytes) :
    read_bin (write_bin v ++ ws) =
      .ok (v.take (v.length % 2 ^ 16), v.drop (v.length % 2 ^ 16) ++ ws) := by
  have hshape : write_bin v ++ ws = toLE 2 v.length ++ (v ++ ws) := by
    simp [write_bin, write_u16]
  rw [hshape, read_bin, Dec.bind_ok_rw (read_u16_append v.length (v ++ ws))]
  have hle : v.length % 2 ^ 16 ≤ v.length := Nat.mod_le _ _
  rw [readBytes, if_pos (by simp; omega)]
  rw [List.take_append_of_le_length hle, List.drop_append_of_le_length hle]

theorem read_bin_append_small {v : Bytes} (h : v.length < 2 ^ 16)
    (ws : Bytes) : read_bin (write_bin v ++ ws) = .ok (v, ws) := by
  rw [read_bin_append, Nat.mod_eq_of_lt h]
  simp

/-! ### Consumption discipline of decoders

Every reader in the codec consumes a determined span of the stream, and on
any strict truncation of that span fails with `BufferUnsatisfied`.  Both
properties are closed under sequencing, which settles the truncation claim
for each full message decoder. -/

/-- On success, a decoder has consumed a determined span: the rest is the
corresponding suffix of the input, and following the consumed span with any
continuation yields the same value with that continuation as rest. -/
def Consumes (p : Dec α) : Prop :=
  ∀ input a rest, p input = .ok (a, rest) →
    ∃ c, c ≤ input.length ∧ rest = input.drop c ∧
      ∀ ws, p (input.take c ++ ws) = .ok (a, ws)

/-- On every strict truncation of the span it consumed, a decoder fails with
`BufferUnsatisfied`. -/
def TruncFails (p : Dec α) : Prop :=
  ∀ input a rest, p input = .ok (a, rest) →
    ∀ k, k < input.length - rest.length →
      p (input.take k) = .error .BufferUnsatisfied

def GoodDec (p : Dec α) : Prop := Consumes p ∧ TruncFails p

theorem goodDec_pure (a : α) : GoodDec (Dec.pure a) := by
  constructor
  · intro input b rest h
    simp only [Dec.pure, Except.ok.injEq, Prod.mk.injEq] at h
    obtain ⟨rfl, rfl⟩ := h
    exact ⟨0, Nat.zero_le _, by simp, fun ws => by simp [Dec.pure]⟩
  · intro input b rest h k hk
    simp only [Dec.pure, Except.ok.injEq, Prod.mk.injEq] at h
    obtain ⟨rfl, rfl⟩ := h
    omega

theorem goodDec_fail (e : Err) : GoodDec (Dec.fail e : Dec α) := by
  constructor <;> intro input a rest h <;> simp [Dec.fail] at h

theorem goodDec_readBytes (n : Nat) : GoodDec (readBytes n) := by
  constructor
  · intro input a rest h
    rw [readBytes] at h
    split at h
    case isTrue hle =>
      simp only [Except.ok.injEq, Prod.mk.injEq] at h
      obtain ⟨rfl, rfl⟩ := h
      refine ⟨n, hle, rfl, fun ws => ?_⟩
      have hlen : (input.take n).length = n := by simp [hle]
      rw [readBytes, if_pos (by simp [hlen]), List.take_left' hlen,
        List.drop_left' hlen]
    case isFalse => exact absurd h (by simp)
  · intro input a rest h k hk
    rw [readBytes] at h
    split at h
    case isTrue hle =>
      simp only [Except.ok.injEq, Prod.mk.injEq] at h
      obtain ⟨rfl, rfl⟩ := h
      have hkn : k < n := by simp [List.length_drop] at hk; omega
      rw [readBytes, if_neg (by simp [List.length_take]; omega)]
    case isFalse => exact absurd h (by simp)

theorem goodDec_bind {p : Dec α} {f : α → Dec β} (hp : GoodDec p)
    (hf : ∀ a, GoodDec (f a)) : GoodDec (Dec.bind p f) := by
  constructor
  · intro input b rest h
    obtain ⟨a, mid, hpa, hfb⟩ := Dec.bind_eq_ok h
    obtain ⟨cp, hcp, hmid, hpf⟩ := hp.1 _ _ _ hpa
    obtain ⟨cf, hcf, hrest, hff⟩ := (hf a).1 _ _ _ hfb
    have hmidlen : mid.length = input.length - cp := by rw [hmid]; simp
    refine ⟨cp + cf, by omega, ?_, ?_⟩
    · rw [hrest, hmid, List.drop_drop]
    · intro ws
      have hsplit : input.take (cp + cf) = input.take cp ++ mid.take cf := by
        rw [List.take_add, hmid]
      rw [hsplit, List.append_assoc, Dec.bind_ok_rw (hpf (mid.take cf ++ ws))]
      exact hff ws
  · intro input b rest h k hk
    obtain ⟨a, mid, hpa, hfb⟩ := Dec.bind_eq_ok h
    obtain ⟨cp, hcp, hmid, hpf⟩ := hp.1 _ _ _ hpa
    obtain ⟨cf, hcf, hrest, hff⟩ := (hf a).1 _ _ _ hfb
    have hmidlen : mid.length = input.length - cp := by rw [hmid]; simp
    have hrestlen : rest.length = mid.length - cf := by rw [hrest]; simp
    by_cases hkcp : k < cp
    · have herr : p (input.take k) = .error .BufferUnsatisfied :=
        hp.2 _ _ _ hpa k (by omega)
      exact Dec.bind_err_rw herr
    · have hsplit : input.take k = input.take cp ++ mid.take (k - cp) := by
        have hk' : k = cp + (k - cp) := by omega
        rw [hk', List.take_add, hmid]
        norm_num
      have herr2 : f a (mid.take (k - cp)) = .error .BufferUnsatisfied :=
        (hf a).2 _ _ _ hfb (k - cp) (by omega)
      rw [hsplit, Dec.bind_ok_rw (hpf (mid.take (k - cp)))]
      exact herr2

theorem goodDec_ite {c : Prop} [Decidable c] {p q : Dec α} (hp : GoodDec p)
    (hq : GoodDec q) : GoodDec (if c then p else q) := by
  split <;> assumption

theorem goodDec_readLE (w : Nat) : GoodDec (readLE w) :=
  goodDec_bind (goodDec_readBytes w) fun bs => goodDec_pure (fromLE bs)

theorem goodDec_read_bin : GoodDec read_bin :=
  goodDec_bind (goodDec_readLE 2) fun n => goodDec_readBytes n

theorem goodDec_Open_read_from : GoodDec Open.read_from :=
  goodDec_bind (goodDec_readLE 2) fun _ =>
  goodDec_bind (goodDec_readLE 2) fun _ =>
  goodDec_bind (goodDec_readLE 1) fun _ =>
  goodDec_bind goodDec_read_bin fun _ => goodDec_pure _

theorem goodDec_Close_read_from : GoodDec Close.read_from :=
  goodDec_bind (goodDec_readLE 2) fun _ =>
  goodDec_bind (goodDec_readLE 1) fun _ =>
  goodDec_bind goodDec_read_bin fun _ => goodDec_pure _

theorem goodDec_Block_read_from : GoodDec Block.read_from :=
  goodDec_bind (goodDec_readLE 2) fun _ =>
  goodDec_bind (goodDec_readLE 1) fun _ =>
  goodDec_bind goodDec_read_bin fun _ => goodDec_pure _

theorem goodDec_Control_read_from : GoodDec Control.read_from :=
  goodDec_bind (goodDec_readLE 1) fun _ =>
  goodDec_ite
    (goodDec_bind (goodDec_readLE 2) fun _ =>
     goodDec_bind (goodDec_readLE 16) fun _ =>
     goodDec_bind (goodDec_readLE 16) fun _ =>
     goodDec_bind (goodDec_readLE 8) fun _ =>
     goodDec_bind (goodDec_readLE 4) fun _ =>
     goodDec_bind (goodDec_readLE 4) fun _ => goodDec_pure _)
    (goodDec_ite
      (goodDec_bind (goodDec_readLE 8) fun _ => goodDec_pure _)
      (goodDec_fail _))

/-! ### Decode-of-encode computations -/

theorem readLE_ok (w : Nat) (input : Bytes) (h : w ≤ input.length) :
    readLE w input = .ok (fromLE (input.take w), input.drop w) := by
  have hb : readBytes w input = .ok (input.take w, input.drop w) := by
    rw [readBytes, if_pos h]
  rw [readLE, Dec.bind_ok_rw hb, Dec.pure]

theorem read_u8_cons (b : Nat) (rest : Bytes) :
    read_u8 (b :: rest) = .ok (b, rest) := by
  have h := readLE_ok 1 (b :: rest) (by simp)
  simpa [read_u8, fromLE] using h

theorem Open_read_write (m : Open) (ws : Bytes) :
    Open.read_from (Open.write_to m ++ ws) =
      .ok ({ pipe_id := m.pipe_id % 2 ^ 16,
             function_id := m.function_id % 2 ^ 16,
             priority := m.priority % 2 ^ 8,
             params := m.params.take (m.params.length % 2 ^ 16) },
           m.params.drop (m.params.length % 2 ^ 16) ++ ws) := by
  have hshape : Open.write_to m ++ ws =
      toLE 2 m.pipe_id ++ (toLE 2 m.function_id ++ (toLE 1 m.priority ++
        (write_bin m.params ++ ws))) := by
    simp [Open.write_to, write_u16, write_u8, List.append_assoc]
  rw [hshape, Open.read_from,
    Dec.bind_ok_rw (read_u16_append _ _),
    Dec.bind_ok_rw (read_u16_append _ _),
    Dec.bind_ok_rw (read_u8_append _ _),
    Dec.bind_ok_rw (read_bin_append _ _)]
  rfl

theorem Close_read_write (m : Close) (ws : Bytes) :
    Close.read_from (Close.write_to m ++ ws) =
      .ok ({ pipe_id := m.pipe_id % 2 ^ 16, failure := m.failure,
             result := m.result.take (m.result.length % 2 ^ 16) },
           m.result.drop (m.result.length % 2 ^ 16) ++ ws) := by
  obtain ⟨p, fl, r⟩ := m
  have hshape : Close.write_to ⟨p, fl, r⟩ ++ ws =
      toLE 2 p ++ (toLE 1 (if fl then 1 else 0) ++ (write_bin r ++ ws)) := by
    simp [Close.write_to, write_u16, write_u8, List.append_assoc]
  rw [hshape, Close.read_from,
    Dec.bind_ok_rw (read_u16_append _ _),
    Dec.bind_ok_rw (read_u8_append _ _),
    Dec.bind_ok_rw (read_bin_append _ _)]
  cases fl <;> rfl

theorem Block_read_write (m : Block) (ws : Bytes) :
    Block.read_from (Block.write_to m ++ ws) =
      .ok ({ pipe_id := m.pipe_id % 2 ^ 16,
             eof := ((m.loss ||| if m.eof then 128 else 0) % 2 ^ 8) &&& 128
               != 0,
             loss := ((m.loss ||| if m.eof then 128 else 0) % 2 ^ 8) &&& 127,
             payload := m.payload.take (m.payload.length % 2 ^ 16) },
           m.payload.drop (m.payload.length % 2 ^ 16) ++ ws) := by
  have hshape : Block.write_to m ++ ws =
      toLE 2 m.pipe_id ++ (toLE 1 (m.loss ||| if m.eof then 128 else 0) ++
        (write_bin m.payload ++ ws)) := by
    simp [Block.write_to, write_u16, write_u8, List.append_assoc]
  rw [hshape, Block.read_from,
    Dec.bind_ok_rw (read_u16_append _ _),
    Dec.bind_ok_rw (read_u8_append _ _),
    Dec.bind_ok_rw (read_bin_append _ _)]
  rfl

theorem Control.read_from_sysconfig_tag (rest : Bytes) :
    Control.read_from (toLE 1 ID_CTRL_SYSCONFIG ++ rest) =
      (Dec.bind read_u16 fun version =>
       Dec.bind read_u128 fun node_id =>
       Dec.bind read_u128 fun session_id =>
       Dec.bind read_u64 fun utc_time =>
       Dec.bind read_u32 fun ping_interval =>
       Dec.bind read_u32 fun session_timeout =>
       Dec.pure (.SystemConfig version node_id session_id utc_time
         ping_interval session_timeout)) rest := by
  rw [Control.read_from, Dec.bind_ok_rw (read_u8_append _ _)]
  norm_num [ID_CTRL_SYSCONFIG]

theorem Control.read_from_ping_tag (rest : Bytes) :
    Control.read_from (toLE 1 ID_CTRL_PING ++ rest) =
      (Dec.bind read_u64 fun utc_time => Dec.pure (.Ping utc_time)) rest := by
  rw [Control.read_from, Dec.bind_ok_rw (read_u8_append _ _)]
  norm_num [ID_CTRL_SYSCONFIG, ID_CTRL_PING]

theorem Control.read_write_sysconfig (version node_id session_id utc_time
    ping_interval session_timeout : Nat) (ws : Bytes) :
    Control.read_from (Control.write_to (.SystemConfig version node_id
      session_id utc_time ping_interval session_timeout) ++ ws) =
      .ok (.SystemConfig (version % 2 ^ 16) (node_id % 2 ^ 128)
        (session_id % 2 ^ 128) (utc_time % 2 ^ 64) (ping_interval % 2 ^ 32)
        (session_timeout % 2 ^ 32), ws) := by
  have hshape : Control.write_to (.SystemConfig version node_id session_id
      utc_time ping_interval session_timeout) ++ ws =
      toLE 1 ID_CTRL_SYSCONFIG ++ (toLE 2 version ++ (toLE 16 node_id ++
        (toLE 16 session_id ++ (toLE 8 utc_time ++ (toLE 4 ping_interval ++
          (toLE 4 session_timeout ++ ws)))))) := by
    simp [Control.write_to, write_u8, write_u16, write_u32, write_u64,
      write_u128, List.append_assoc]
  rw [hshape, Control.read_from_sysconfig_tag,
    Dec.bind_ok_rw (read_u16_append _ _),
    Dec.bind_ok_rw (read_u128_append _ _),
    Dec.bind_ok_rw (read_u128_append _ _),
    Dec.bind_ok_rw (read_u64_append _ _),
    Dec.bind_ok_rw (read_u32_append _ _),
    Dec.bind_ok_rw (read_u32_append _ _)]
  rfl

theorem Control.read_write_ping (utc_time : Nat) (ws : Bytes) :
    Control.read_from (Control.write_to (.Ping utc_time) ++ ws) =
      .ok (.Ping (utc_time % 2 ^ 64), ws) := by
  have hshape : Control.write_to (.Ping utc_time) ++ ws =
      toLE 1 ID_CTRL_PING ++ (toLE 8 utc_time ++ ws) := by
    simp [Control.write_to, write_u8, write_u64, List.append_assoc]
  rw [hshape, Control.read_from_ping_tag,
    Dec.bind_ok_rw (read_u64_append _ _)]
  rfl

/-! ### Constructor inversion -/

theorem Open_new_ok {p f pr : Nat} {params : Bytes} {m : Open}
    (h : Open.new p f pr params = .ok m) :
    p ≠ 0 ∧ m = ⟨p, f, pr, params⟩ := by
  by_cases hp : p = 0 <;> simp [Open.new, verify_pipe_id, hp] at h
  exact ⟨hp, h.symm⟩

theorem Close_new_ok {p : Nat} {fl : Bool} {r : Bytes} {m : Close}
    (h : Close.new p fl r = .ok m) : p ≠ 0 ∧ m = ⟨p, fl, r⟩ := by
  by_cases hp : p = 0 <;> simp [Close.new, verify_pipe_id, hp] at h
  exact ⟨hp, h.symm⟩

theorem Block_new_ok {p : Nat} {e : Bool} {l : Nat} {pay : Bytes} {m : Block}
    (h : Block.new p e l pay = .ok m) :
    p ≠ 0 ∧ pay.length ≤ MAX_PAYLOAD_SIZE ∧ l ≤ MAX_LOSS_RATE ∧
      m = ⟨p, e, l, pay⟩ := by
  by_cases hp : p = 0
  · simp [Block.new, verify_pipe_id, hp] at h
  by_cases hpay : pay.length > MAX_PAYLOAD_SIZE
  · simp [Block.new, verify_pipe_id, hp, hpay] at h
  by_cases hl : l > MAX_LOSS_RATE
  · simp [Block.new, verify_pipe_id, hp, hpay, hl] at h
  simp [Block.new, verify_pipe_id, hp, hpay, hl] at h
  exact ⟨hp, by omega, by omega, h.symm⟩

/-- The four arithmetic facts about the `Block` bit field: or-ing in the eof
bit is addition of 128 for a loss rate below 128, and masking recovers the
two fields. -/
theorem block_bit_field_facts : ∀ l, l < 128 →
    l ||| 128 = l + 128 ∧ (l + 128) &&& 128 = 128 ∧ (l + 128) &&& 127 = l ∧
      l &&& 128 = 0 ∧ l &&& 127 = l ∧ l ||| 0 = l := by decide

/-! ### Claim C1: codec round-trip -/

/-- Params list longer than a `u16` length prefix can record. -/
def overlongParams : Bytes := List.replicate (2 ^ 16) 0

/-- An `Open` message accepted by `Open::new` whose params length overflows
the `u16` length prefix written by `write_bin`. -/
def overlongOpen : Open :=
  { pipe_id := 1, function_id := 0, priority := 0, params := overlongParams }

/-- C1 (counterexample): the message `Open::new(1, 0, 0, vec![0; 65536])` is
accepted by the constructor, but writing it and reading the bytes back yields
a *different* message (empty params), because `write_bin` truncates the
length prefix `65536` to the `u16` value `0`. -/
theorem C1_roundtrip_cex :
    Open.new 1 0 0 overlongParams = .ok overlongOpen ∧
    Open.read_from (Open.write_to overlongOpen) =
      .ok ({ pipe_id := 1, function_id := 0, priority := 0, params := [] },
        overlongParams) ∧
    ({ pipe_id := 1, function_id := 0, priority := 0, params := [] } : Open)
      ≠ overlongOpen := by
  refine ⟨rfl, ?_, ?_⟩
  · have h := Open_read_write overlongOpen []
    simp only [List.append_nil] at h
    rw [h]
    have hlen : overlongOpen.params.length = 2 ^ 16 := by
      show (List.replicate (2 ^ 16) (0 : Nat)).length = 2 ^ 16
      rw [List.length_replicate]
    simp only [hlen, Nat.mod_self, List.take_zero, List.drop_zero,
      List.append_nil]
    rfl
  · intro hc
    have h2 : ([] : Bytes) = overlongOpen.params := congrArg Open.params hc
    have h3 := congrArg List.length h2
    simp only [List.length_nil] at h3
    have h4 : overlongOpen.params.length = 2 ^ 16 := by
      show (List.replicate (2 ^ 16) (0 : Nat)).length = 2 ^ 16
      rw [List.length_replicate]
    rw [h4] at h3
    norm_num at h3

/-- C1 (amended): for every message accepted by `Open::new`, `Close::new`,
`Block::new`, `Control::new_system_config` or `Control::new_ping` whose
fields fit their on-wire widths — in particular whose variable-length field
(`Open.params`, `Close.result`) is shorter than 2^16 bytes — writing with
`write_to` and reading back with the matching `read_from` returns exactly
the original message having consumed the whole encoding. -/
theorem C1_roundtrip_amended :
    (∀ p f pr params m, p < 2 ^ 16 → f < 2 ^ 16 → pr < 2 ^ 8 →
      params.length < 2 ^ 16 → Open.new p f pr params = .ok m →
      Open.read_from (Open.write_to m) = .ok (m, [])) ∧
    (∀ p fl r m, p < 2 ^ 16 → r.length < 2 ^ 16 →
      Close.new p fl r = .ok m →
      Close.read_from (Close.write_to m) = .ok (m, [])) ∧
    (∀ p e l pay m, p < 2 ^ 16 → Block.new p e l pay = .ok m →
      Block.read_from (Block.write_to m) = .ok (m, [])) ∧
    (∀ v nid sid utc pi st m, v < 2 ^ 16 → nid < 2 ^ 128 → sid < 2 ^ 128 →
      utc < 2 ^ 64 → pi < 2 ^ 32 → st < 2 ^ 32 →
      Control.new_system_config v nid sid utc pi st = .ok m →
      Control.read_from (Control.write_to m) = .ok (m, [])) ∧
    (∀ utc m, utc < 2 ^ 64 → Control.new_ping utc = .ok m →
      Control.read_from (Control.write_to m) = .ok (m, [])) := by
  refine ⟨?_, ?_, ?_, ?_, ?_⟩
  · intro p f pr params m hp hf hpr hlen hnew
    obtain ⟨-, rfl⟩ := Open_new_ok hnew
    have h := Open_read_write ⟨p, f, pr, params⟩ []
    simp only [List.append_nil] at h
    rw [h]
    simp only [Nat.mod_eq_of_lt hp, Nat.mod_eq_of_lt hf,
      Nat.mod_eq_of_lt hpr, Nat.mod_eq_of_lt hlen, List.take_length,
      List.drop_length, List.nil_append]
  · intro p fl r m hp hlen hnew
    obtain ⟨-, rfl⟩ := Close_new_ok hnew
    have h := Close_read_write ⟨p, fl, r⟩ []
    simp only [List.append_nil] at h
    rw [h]
    simp only [Nat.mod_eq_of_lt hp, Nat.mod_eq_of_lt hlen, List.take_length,
      List.drop_length, List.nil_append]
  · intro p e l pay m hp hnew
    obtain ⟨-, hpay, hl, rfl⟩ := Block_new_ok hnew
    have hlen : pay.length < 2 ^ 16 := by
      simp [MAX_PAYLOAD_SIZE] at hpay
      omega
    have hl128 : l < 128 := by
      simp [MAX_LOSS_RATE] at hl
      omega
    obtain ⟨h1, h2, h3, h4, h5, h6⟩ := block_bit_field_facts l hl128
    have h := Block_read_write ⟨p, e, l, pay⟩ []
    simp only [List.append_nil] at h
    rw [h]
    cases e with
    | false =>
      simp only [show (if (false = true) then (128 : Nat) else 0) = 0
          from rfl, h6, Nat.mod_eq_of_lt (show l < 2 ^ 8 by omega), h4, h5,
        Nat.mod_eq_of_lt hp, Nat.mod_eq_of_lt hlen, List.take_length,
        List.drop_length, List.nil_append]
      rfl
    | true =>
      simp only [eq_self_iff_true, if_true, h1,
        Nat.mod_eq_of_lt (show l + 128 < 2 ^ 8 by omega),
        h2, h3, Nat.mod_eq_of_lt hp, Nat.mod_eq_of_lt hlen, List.take_length,
        List.drop_length, List.nil_append]
      rfl
  · intro v nid sid utc pi st m hv hnid hsid hutc hpi hst hnew
    simp only [Control.new_system_config, Except.ok.injEq] at hnew
    have h := Control.read_write_sysconfig v nid sid utc pi st []
    simp only [List.append_nil] at h
    rw [← hnew, h, Nat.mod_eq_of_lt hv, Nat.mod_eq_of_lt hnid,
      Nat.mod_eq_of_lt hsid, Nat.mod_eq_of_lt hutc, Nat.mod_eq_of_lt hpi,
      Nat.mod_eq_of_lt hst]
  · intro utc m hutc hnew
    simp only [Control.new_ping, Except.ok.injEq] at hnew
    have h := Control.read_write_ping utc []
    simp only [List.append_nil] at h
    rw [← hnew, h, Nat.mod_eq_of_lt hutc]

/-- C1 (witness): the amended round-trip at one concrete message of each of
the five constructors. -/
theorem C1_roundtrip_witness :
    Open.read_from (Open.write_to ⟨1, 2, 3, [4, 5]⟩) =
      .ok (⟨1, 2, 3, [4, 5]⟩, []) ∧
    Close.read_from (Close.write_to ⟨1, true, [2, 3]⟩) =
      .ok (⟨1, true, [2, 3]⟩, []) ∧
    Block.read_from (Block.write_to ⟨1, true, 2, [3, 4]⟩) =
      .ok (⟨1, true, 2, [3, 4]⟩, []) ∧
    Control.read_from (Control.write_to (.SystemConfig 1 2 3 4 5 6)) =
      .ok (.SystemConfig 1 2 3 4 5 6, []) ∧
    Control.read_from (Control.write_to (.Ping 7)) = .ok (.Ping 7, []) := by
  refine ⟨?_, ?_, ?_, ?_, ?_⟩
  · exact C1_roundtrip_amended.1 1 2 3 [4, 5] _ (by decide) (by decide)
      (by decide) (by decide) rfl
  · exact C1_roundtrip_amended.2.1 1 true [2, 3] _ (by decide) (by decide)
      rfl
  · exact C1_roundtrip_amended.2.2.1 1 true 2 [3, 4] _ (by decide) rfl
  · exact C1_roundtrip_amended.2.2.2.1 1 2 3 4 5 6 _ (by decide) (by decide)
      (by decide) (by decide) (by decide) (by decide) rfl
  · exact C1_roundtrip_amended.2.2.2.2 7 _ (by decide) rfl

/-! ### Claim C2: truncation reports BufferUnsatisfied -/

/-- C2 (counterexample): for the constructor-accepted message
`Open::new(1, 0, 0, vec![0; 65536])`, the encoding has length `65543`, yet
decoding its 7-byte prefix *succeeds* (the truncated `u16` length prefix is
`0`, so the decoder needs no further bytes) instead of reporting
`BufferUnsatisfied`. -/
theorem C2_truncation_cex :
    Open.new 1 0 0 overlongParams = .ok overlongOpen ∧
    7 < (Open.write_to overlongOpen).length ∧
    Open.read_from ((Open.write_to overlongOpen).take 7) =
      .ok ({ pipe_id := 1, function_id := 0, priority := 0, params := [] },
        []) := by
  have hlenP : overlongParams.length = 2 ^ 16 := by
    show (List.replicate (2 ^ 16) (0 : Nat)).length = 2 ^ 16
    rw [List.length_replicate]
  have hshape : Open.write_to overlongOpen =
      [1, 0, 0, 0, 0, 0, 0] ++ overlongParams := by
    show write_u16 1 ++ write_u16 0 ++ write_u8 0 ++
      (write_u16 overlongParams.length ++ overlongParams) =
      [1, 0, 0, 0, 0, 0, 0] ++ overlongParams
    rw [hlenP, show write_u16 1 = [1, 0] by decide,
      show write_u16 0 = [0, 0] by decide, show write_u8 0 = [0] by decide,
      show write_u16 (2 ^ 16) = [0, 0] by decide]
    simp
  refine ⟨rfl, ?_, ?_⟩
  · rw [hshape, List.length_append, hlenP]
    norm_num
  · rw [hshape, List.take_append_of_le_length (by norm_num)]
    decide

/-- C2 (amended): for every constructor-accepted message whose
variable-length field is shorter than 2^16 bytes, decoding any strict prefix
of its encoding fails with `BufferUnsatisfied`. -/
theorem C2_truncation_amended :
    (∀ p f pr params m, params.length < 2 ^ 16 →
      Open.new p f pr params = .ok m →
      ∀ k, k < (Open.write_to m).length →
        Open.read_from ((Open.write_to m).take k) =
          .error .BufferUnsatisfied) ∧
    (∀ p fl r m, r.length < 2 ^ 16 → Close.new p fl r = .ok m →
      ∀ k, k < (Close.write_to m).length →
        Close.read_from ((Close.write_to m).take k) =
          .error .BufferUnsatisfied) ∧
    (∀ p e l pay m, Block.new p e l pay = .ok m →
      ∀ k, k < (Block.write_to m).length →
        Block.read_from ((Block.write_to m).take k) =
          .error .BufferUnsatisfied) ∧
    (∀ v nid sid utc pi st m,
      Control.new_system_config v nid sid utc pi st = .ok m →
      ∀ k, k < (Control.write_to m).length →
        Control.read_from ((Control.write_to m).take k) =
          .error .BufferUnsatisfied) ∧
    (∀ utc m, Control.new_ping utc = .ok m →
      ∀ k, k < (Control.write_to m).length →
        Control.read_from ((Control.write_to m).take k) =
          .error .BufferUnsatisfied) := by
  refine ⟨?_, ?_, ?_, ?_, ?_⟩
  · intro p f pr params m hlen hnew k hk
    obtain ⟨-, rfl⟩ := Open_new_ok hnew
    have hfull := Open_read_write ⟨p, f, pr, params⟩ []
    simp only [List.append_nil, Nat.mod_eq_of_lt hlen, List.take_length,
      List.drop_length, List.nil_append] at hfull
    exact goodDec_Open_read_from.2 _ _ _ hfull k (by simpa using hk)
  · intro p fl r m hlen hnew k hk
    obtain ⟨-, rfl⟩ := Close_new_ok hnew
    have hfull := Close_read_write ⟨p, fl, r⟩ []
    simp only [List.append_nil, Nat.mod_eq_of_lt hlen, List.take_length,
      List.drop_length, List.nil_append] at hfull
    exact goodDec_Close_read_from.2 _ _ _ hfull k (by simpa using hk)
  · intro p e l pay m hnew k hk
    obtain ⟨-, hpay, -, rfl⟩ := Block_new_ok hnew
    have hlen : pay.length < 2 ^ 16 := by
      simp [MAX_PAYLOAD_SIZE] at hpay
      omega
    have hfull := Block_read_write ⟨p, e, l, pay⟩ []
    simp only [List.append_nil, Nat.mod_eq_of_lt hlen, List.take_length,
      List.drop_length, List.nil_append] at hfull
    exact goodDec_Block_read_from.2 _ _ _ hfull k (by simpa using hk)
  · intro v nid sid utc pi st m hnew k hk
    simp only [Control.new_system_config, Except.ok.injEq] at hnew
    have hfull := Control.read_write_sysconfig v nid sid utc pi st []
    simp only [List.append_nil] at hfull
    rw [← hnew]
    rw [← hnew] at hk
    exact goodDec_Control_read_from.2 _ _ _ hfull k (by simpa using hk)
  · intro utc m hnew k hk
    simp only [Control.new_ping, Except.ok.injEq] at hnew
    have hfull := Control.read_write_ping utc []
    simp only [List.append_nil] at hfull
    rw [← hnew]
    rw [← hnew] at hk
    exact goodDec_Control_read_from.2 _ _ _ hfull k (by simpa using hk)

/-- C2 (witness): the amended truncation property at one concrete message of
each of the five constructors, at one concrete cut each. -/
theorem C2_truncation_witness :
    Open.read_from ((Open.write_to ⟨1, 2, 3, [4, 5]⟩).take 4) =
      .error .BufferUnsatisfied ∧
    Close.read_from ((Close.write_to ⟨1, true, [2, 3]⟩).take 3) =
      .error .BufferUnsatisfied ∧
    Block.read_from ((Block.write_to ⟨1, true, 2, [3, 4]⟩).take 6) =
      .error .BufferUnsatisfied ∧
    Control.read_from
        ((Control.write_to (.SystemConfig 1 2 3 4 5 6)).take 50) =
      .error .BufferUnsatisfied ∧
    Control.read_from ((Control.write_to (.Ping 7)).take 8) =
      .error .BufferUnsatisfied := by
  refine ⟨?_, ?_, ?_, ?_, ?_⟩
  · exact C2_truncation_amended.1 1 2 3 [4, 5] _ (by decide) rfl 4 (by decide)
  · exact C2_truncation_amended.2.1 1 true [2, 3] _ (by decide) rfl 3
      (by decide)
  · exact C2_truncation_amended.2.2.1 1 true 2 [3, 4] _ rfl 6 (by decide)
  · exact C2_truncation_amended.2.2.2.1 1 2 3 4 5 6 _ rfl 50 (by decide)
  · exact C2_truncation_amended.2.2.2.2 7 _ rfl 8 (by decide)

/-! ### Claim C3: constructor validation -/

/-- C3: `Open::new`, `Close::new` and `Block::new` reject `pipe_id == 0`
with `ZeroPipeId`; `Block::new` (with a non-zero pipe and payload within the
cap) rejects `loss > 127` with `LossRateTooBig`, and (with a non-zero pipe)
rejects `payload.len() > 0xEFFF` with `PayloadTooLarge`; within all bounds
each constructor returns `Ok` with exactly the given field values. -/
theorem C3_constructor_validation :
    (∀ f pr params, Open.new 0 f pr params = .error .ZeroPipeId) ∧
    (∀ fl r, Close.new 0 fl r = .error .ZeroPipeId) ∧
    (∀ e l pay, Block.new 0 e l pay = .error .ZeroPipeId) ∧
    (∀ p e l pay, p ≠ 0 → pay.length ≤ MAX_PAYLOAD_SIZE →
      l > MAX_LOSS_RATE →
      Block.new p e l pay = .error (.LossRateTooBig l MAX_LOSS_RATE)) ∧
    (∀ p e l pay, p ≠ 0 → pay.length > MAX_PAYLOAD_SIZE →
      Block.new p e l pay =
        .error (.PayloadTooLarge pay.length MAX_PAYLOAD_SIZE)) ∧
    (∀ p f pr params, p ≠ 0 →
      Open.new p f pr params = .ok ⟨p, f, pr, params⟩) ∧
    (∀ p fl r, p ≠ 0 → Close.new p fl r = .ok ⟨p, fl, r⟩) ∧
    (∀ p e l pay, p ≠ 0 → l ≤ MAX_LOSS_RATE →
      pay.length ≤ MAX_PAYLOAD_SIZE →
      Block.new p e l pay = .ok ⟨p, e, l, pay⟩) := by
  refine ⟨?_, ?_, ?_, ?_, ?_, ?_, ?_, ?_⟩
  · intro f pr params
    simp [Open.new, verify_pipe_id]
  · intro fl r
    simp [Close.new, verify_pipe_id]
  · intro e l pay
    simp [Block.new, verify_pipe_id]
  · intro p e l pay hp hpay hl
    simp [Block.new, verify_pipe_id, hp, hl, show ¬pay.length >
      MAX_PAYLOAD_SIZE by omega]
  · intro p e l pay hp hpay
    simp [Block.new, verify_pipe_id, hp, hpay]
  · intro p f pr params hp
    simp [Open.new, verify_pipe_id, hp]
  · intro p fl r hp
    simp [Close.new, verify_pipe_id, hp]
  · intro p e l pay hp hl hpay
    simp [Block.new, verify_pipe_id, hp, show ¬l > MAX_LOSS_RATE by omega,
      show ¬pay.length > MAX_PAYLOAD_SIZE by omega]

/-- C3 (witness): the validation rules at one concrete input each. -/
theorem C3_constructor_validation_witness :
    Open.new 0 9 9 [1] = .error .ZeroPipeId ∧
    Close.new 0 false [] = .error .ZeroPipeId ∧
    Block.new 0 false 0 [] = .error .ZeroPipeId ∧
    Block.new 3 false 200 [1] = .error (.LossRateTooBig 200 MAX_LOSS_RATE) ∧
    Block.new 3 false 0 (List.replicate 61440 0) =
      .error (.PayloadTooLarge (List.replicate (61440 : Nat) (0 : Nat)).length
        MAX_PAYLOAD_SIZE) ∧
    Open.new 4 5 6 [7] = .ok ⟨4, 5, 6, [7]⟩ ∧
    Close.new 4 true [8] = .ok ⟨4, true, [8]⟩ ∧
    Block.new 4 false 9 [9] = .ok ⟨4, false, 9, [9]⟩ := by
  refine ⟨C3_constructor_validation.1 9 9 [1],
    C3_constructor_validation.2.1 false [],
    C3_constructor_validation.2.2.1 false 0 [],
    C3_constructor_validation.2.2.2.1 3 false 200 [1] (by decide) (by decide)
      (by decide),
    C3_constructor_validation.2.2.2.2.1 3 false 0 (List.replicate 61440 0)
      (by decide) (by rw [List.length_replicate]; decide),
    C3_constructor_validation.2.2.2.2.2.1 4 5 6 [7] (by decide),
    C3_constructor_validation.2.2.2.2.2.2.1 4 true [8] (by decide),
    C3_constructor_validation.2.2.2.2.2.2.2 4 false 9 [9] (by decide)
      (by decide) (by decide)⟩

/-! ### Claim C8: Control tag dispatch -/

/-- C8: `Control::read_from` decodes tag `'Q'` (0x51) as a `SystemConfig`,
tag `'P'` (0x50) as a `Ping` carrying the following little-endian `u64`,
and reports `IllegalControlType(t)` for every other first byte `t`. -/
theorem C8_control_tag_dispatch :
    (∀ rest : Bytes, 50 ≤ rest.length →
      Control.read_from (0x51 :: rest) =
        .ok (.SystemConfig (fromLE (rest.take 2))
          (fromLE ((rest.drop 2).take 16)) (fromLE ((rest.drop 18).take 16))
          (fromLE ((rest.drop 34).take 8)) (fromLE ((rest.drop 42).take 4))
          (fromLE ((rest.drop 46).take 4)), rest.drop 50)) ∧
    (∀ rest : Bytes, 8 ≤ rest.length →
      Control.read_from (0x50 :: rest) =
        .ok (.Ping (fromLE (rest.take 8)), rest.drop 8)) ∧
    (∀ t : Nat, ∀ rest : Bytes, t < 256 → t ≠ 0x51 → t ≠ 0x50 →
      Control.read_from (t :: rest) = .error (.IllegalControlType t)) := by
  refine ⟨?_, ?_, ?_⟩
  · intro rest hlen
    have h1 : read_u16 rest = .ok (fromLE (rest.take 2), rest.drop 2) :=
      readLE_ok 2 rest (by omega)
    have h2 : read_u128 (rest.drop 2) =
        .ok (fromLE ((rest.drop 2).take 16), rest.drop 18) := by
      have h := readLE_ok 16 (rest.drop 2) (by simp; omega)
      rw [List.drop_drop] at h
      norm_num at h
      exact h
    have h3 : read_u128 (rest.drop 18) =
        .ok (fromLE ((rest.drop 18).take 16), rest.drop 34) := by
      have h := readLE_ok 16 (rest.drop 18) (by simp; omega)
      rw [List.drop_drop] at h
      norm_num at h
      exact h
    have h4 : read_u64 (rest.drop 34) =
        .ok (fromLE ((rest.drop 34).take 8), rest.drop 42) := by
      have h := readLE_ok 8 (rest.drop 34) (by simp; omega)
      rw [List.drop_drop] at h
      norm_num at h
      exact h
    have h5 : read_u32 (rest.drop 42) =
        .ok (fromLE ((rest.drop 42).take 4), rest.drop 46) := by
      have h := readLE_ok 4 (rest.drop 42) (by simp; omega)
      rw [List.drop_drop] at h
      norm_num at h
      exact h
    have h6 : read_u32 (rest.drop 46) =
        .ok (fromLE ((rest.drop 46).take 4), rest.drop 50) := by
      have h := readLE_ok 4 (rest.drop 46) (by simp; omega)
      rw [List.drop_drop] at h
      norm_num at h
      exact h
    rw [Control.read_from, Dec.bind_ok_rw (read_u8_cons 0x51 rest)]
    norm_num [ID_CTRL_SYSCONFIG, ID_CTRL_PING]
    rw [Dec.bind_ok_rw h1, Dec.bind_ok_rw h2, Dec.bind_ok_rw h3,
      Dec.bind_ok_rw h4, Dec.bind_ok_rw h5, Dec.bind_ok_rw h6]
    rfl
  · intro rest hlen
    have h8 : read_u64 rest = .ok (fromLE (rest.take 8), rest.drop 8) :=
      readLE_ok 8 rest (by omega)
    rw [Control.read_from, Dec.bind_ok_rw (read_u8_cons 0x50 rest)]
    norm_num [ID_CTRL_SYSCONFIG, ID_CTRL_PING]
    rw [Dec.bind_ok_rw h8]
    rfl
  · intro t rest ht h81 h80
    rw [Control.read_from, Dec.bind_ok_rw (read_u8_cons t rest)]
    simp only [ID_CTRL_SYSCONFIG, ID_CTRL_PING]
    rw [if_neg (by omega), if_neg (by omega)]
    rfl

/-- C8 (witness): the tag dispatch at one concrete stream per branch. -/
theorem C8_control_tag_dispatch_witness :
    Control.read_from (0x51 :: List.replicate 50 0) =
      .ok (.SystemConfig (fromLE ((List.replicate (50 : Nat) (0 : Nat)).take 2))
        (fromLE (((List.replicate (50 : Nat) (0 : Nat)).drop 2).take 16))
        (fromLE (((List.replicate (50 : Nat) (0 : Nat)).drop 18).take 16))
        (fromLE (((List.replicate (50 : Nat) (0 : Nat)).drop 34).take 8))
        (fromLE (((List.replicate (50 : Nat) (0 : Nat)).drop 42).take 4))
        (fromLE (((List.replicate (50 : Nat) (0 : Nat)).drop 46).take 4)),
        (List.replicate (50 : Nat) (0 : Nat)).drop 50) ∧
    Control.read_from (0x50 :: [1, 0, 0, 0, 0, 0, 0, 0]) =
      .ok (.Ping (fromLE (([1, 0, 0, 0, 0, 0, 0, 0] : Bytes).take 8)),
        ([1, 0, 0, 0, 0, 0, 0, 0] : Bytes).drop 8) ∧
    Control.read_from (65 :: [9]) = .error (.IllegalControlType 65) :=
  ⟨C8_control_tag_dispatch.1 (List.replicate 50 0)
      (by rw [List.length_replicate]),
   C8_control_tag_dispatch.2.1 [1, 0, 0, 0, 0, 0, 0, 0] (by decide),
   C8_control_tag_dispatch.2.2 65 [9] (by decide) (by decide) (by decide)⟩

/-! ### Claim C9: decoded Blocks always have loss ≤ 127 -/

/-- C9: every `Block` successfully returned by `Block::read_from` has
`loss ≤ 127`, for every input stream, because the decoder masks the bit
field with `0x7F` — even though `read_from` bypasses `Block::new`. -/
theorem C9_block_loss_le_127 :
    ∀ input (b : Block) (rest : Bytes),
      Block.read_from input = .ok (b, rest) → b.loss ≤ 127 := by
  intro input b rest h
  obtain ⟨pipe, r1, h1, h⟩ := Dec.bind_eq_ok h
  obtain ⟨bf, r2, h2, h⟩ := Dec.bind_eq_ok h
  obtain ⟨pay, r3, h3, h⟩ := Dec.bind_eq_ok h
  simp only [Dec.pure, Except.ok.injEq, Prod.mk.injEq] at h
  obtain ⟨hb, -⟩ := h
  rw [← hb]
  exact Nat.and_le_right

/-- C9 (witness): the invariant at one concrete decoded block. -/
theorem C9_block_loss_le_127_witness : (⟨1, false, 5, []⟩ : Block).loss ≤ 127 :=
  C9_block_loss_le_127 [1, 0, 5, 0, 0] ⟨1, false, 5, []⟩ [] (by decide)

/-! ### Claim C10: Open imposes no params bound; write truncates -/

/-- C10: `Open::new` imposes no bound on `params.len()` — any non-zero pipe
id yields `Ok` regardless of the params length — and `Open::write_to` writes
`params.len() as u16`, i.e. the length reduced modulo 2^16, as the binary
length prefix. -/
theorem C10_open_unbounded_params :
    ∀ p f pr : Nat, ∀ params : Bytes, p ≠ 0 →
      Open.new p f pr params = .ok ⟨p, f, pr, params⟩ ∧
      Open.write_to ⟨p, f, pr, params⟩ =
        write_u16 p ++ write_u16 f ++ write_u8 pr ++
          (write_u16 params.length ++ params) ∧
      write_u16 params.length = write_u16 (params.length % 2 ^ 16) ∧
      fromLE (write_u16 params.length) = params.length % 2 ^ 16 := by
  intro p f pr params hp
  refine ⟨by simp [Open.new, verify_pipe_id, hp], rfl, ?_, ?_⟩
  · rw [write_u16, write_u16, show (2 : Nat) ^ 16 = 256 ^ 2 by norm_num,
      toLE_mod]
  · rw [write_u16, fromLE_toLE]
    norm_num

/-- C10 (witness): the statement at one concrete `Open`. -/
theorem C10_open_unbounded_params_witness :
    Open.new 1 2 3 [4, 5] = .ok ⟨1, 2, 3, [4, 5]⟩ ∧
    Open.write_to ⟨1, 2, 3, [4, 5]⟩ =
      write_u16 1 ++ write_u16 2 ++ write_u8 3 ++
        (write_u16 ([4, 5] : Bytes).length ++ [4, 5]) ∧
    write_u16 ([4, 5] : Bytes).length =
      write_u16 (([4, 5] : Bytes).length % 2 ^ 16) ∧
    fromLE (write_u16 ([4, 5] : Bytes).length) =
      ([4, 5] : Bytes).length % 2 ^ 16 :=
  C10_open_unbounded_params 1 2 3 [4, 5] (by decide)

/-!
## The I/O dispatcher (`src/bridge/io/dispatcher/mod.rs`)

The socket-facing logic of the dispatcher is embedded as pure transition
functions.  OS-level objects (mio streams, peer addresses, I/O errors) are
opaque and appear as natural-number handles; handler callbacks are state
machines over an arbitrary state type; the polling loop's socket map is
abstracted to its `next` cursor plus the list of live socket ids.  `usize`
is the 64-bit target type; wrapping arithmetic is taken modulo `2^64`
(release-build semantics).  An `Option` result with value `none` models a
panic (`unwrap()`, `unreachable!()`).
-/

/-- `2^64`: one past `usize::MAX` on the 64-bit target. -/
def USIZE : Nat := 2 ^ 64

/-- `std::usize::MAX`. -/
def USIZE_MAX : Nat := USIZE - 1

/-- Observable outcome of one `Dispatcher::stop` call: the flag value it
leaves behind, whether it submitted the closing task to the event loop, and
the `Ok` value the returned future resolves to. -/
structure StopCall where
  closed : Bool
  submitted_stop_task : Bool
  resolves_to : Nat
  deriving DecidableEq, Repr

/-- `Dispatcher::stop`, as a function of the `closed` flag.
`compare_and_swap(false, true, SeqCst)` stores `true` and returns the
*previous* value of the flag, and that previous value is the `if`
condition: the then branch logs and submits (via `run_in_event_loop`) the
task that sets `PollingLoop.closed = true` and resolves `Ok(0)`; the else
branch returns `ready(Ok(0))` without submitting anything. -/
def Dispatcher.stop (closed : Bool) : StopCall :=
  let prev := closed
  if prev then
    { closed := true, submitted_stop_task := true, resolves_to := 0 }
  else
    { closed := true, submitted_stop_task := false, resolves_to := 0 }

/-- The closure `stop` hands to `run_in_event_loop`: it sets the polling
loop's `closed` flag and returns `Ok(0usize)`. -/
def Dispatcher.stopTask (_ : Bool) : Bool × Except Err Nat :=
  (true, .ok 0)

/-- C4: the spec says the *first* `stop()` call submits the task that sets
the event loop's `closed` flag.  The code inverts the `compare_and_swap`
result: on a fresh dispatcher (`closed = false`) it takes the else branch
and submits nothing, so the polling loop never learns it should close; only
a *repeated* call (flag already `true`) submits the closing task.  Every
call does resolve to `Ok(0)`, and the task itself would set the loop's flag
and resolve `Ok(0)`. -/
theorem C4_stop_first_call_submits_nothing :
    Dispatcher.stop false =
      { closed := true, submitted_stop_task := false, resolves_to := 0 } ∧
    Dispatcher.stop true =
      { closed := true, submitted_stop_task := true, resolves_to := 0 } ∧
    Dispatcher.stopTask false = (true, .ok 0) :=
  ⟨rfl, rfl, rfl⟩

/-- `SocketMap`: the `next` cursor and the key set of the `sockets` map. -/
structure SocketMap where
  next : Nat
  sockets : List Nat
  deriving DecidableEq, Repr

/-- `let max = std::usize::MAX - 2` in `SocketMap::available_id`. -/
def SOCKETMAP_SCAN_MAX : Nat := USIZE_MAX - 2

/-- The candidate scan of `available_id`: `for i in 0..=max`, try
`id = (next as u64 + i as u64) as usize + 1` (wrapping), returning the
first id not present in the map.  `fuel` counts the remaining iterations;
`none` is loop exhaustion. -/
def SocketMap.scan (sockets : List Nat) (next i fuel : Nat) : Option Nat :=
  if h : fuel = 0 then none
  else
    let id := ((next + i) % USIZE + 1) % USIZE
    if id ∈ sockets then SocketMap.scan sockets next (i + 1) (fuel - 1)
    else some id
termination_by fuel
decreasing_by omega

/-- `SocketMap::available_id`: reject when the map holds `MAX - 2` entries,
otherwise scan `max + 1` candidates from the cursor; on success bump the
cursor (wrapping to 0 when it reaches `max`).  `none` models the
`unreachable!()` panic. -/
def SocketMap.available_id (m : SocketMap) :
    Option (Except Err (Nat × SocketMap)) :=
  if m.sockets.length = SOCKETMAP_SCAN_MAX then
    some (.error (.TooManySockets USIZE_MAX))
  else
    match SocketMap.scan m.sockets m.next 0 (SOCKETMAP_SCAN_MAX + 1) with
    | some id =>
      some (.ok (id,
        { next := if m.next + 1 = SOCKETMAP_SCAN_MAX then 0 else m.next + 1,
          sockets := m.sockets }))
    | none => none

/-- C5 (code-bug evidence): from the state with cursor `next = 2^64 - 4`
and live ids `MAX-2` and `MAX-1`, `available_id` returns the id
`usize::MAX` — which the function's own NOTE comment declares reserved for
the `Poll` internals — because the scan `(next + i) + 1` never skips `0`
or `MAX` when it runs past the top of the id space.  This contradicts the
claimed range `1 ..= MAX-1`. -/
theorem SocketMap.available_id_of_scan {m : SocketMap} {id : Nat}
    (hlen : m.sockets.length ≠ SOCKETMAP_SCAN_MAX)
    (hscan : SocketMap.scan m.sockets m.next 0 (SOCKETMAP_SCAN_MAX + 1) =
      some id) :
    SocketMap.available_id m = some (.ok (id,
      { next := if m.next + 1 = SOCKETMAP_SCAN_MAX then 0 else m.next + 1,
        sockets := m.sockets })) := by
  rw [SocketMap.available_id, if_neg hlen, hscan]

theorem C5_available_id_returns_reserved_max :
    SocketMap.available_id
        { next := USIZE - 4, sockets := [USIZE - 3, USIZE - 2] } =
      some (.ok (USIZE_MAX,
        { next := 0, sockets := [USIZE - 3, USIZE - 2] })) ∧
    USIZE_MAX = 2 ^ 64 - 1 ∧ USIZE - 3 = USIZE_MAX - 2 ∧
    USIZE - 2 = USIZE_MAX - 1 := by
  have s1 : SocketMap.scan [USIZE - 3, USIZE - 2] (USIZE - 4) 0
      (SOCKETMAP_SCAN_MAX + 1) =
      SocketMap.scan [USIZE - 3, USIZE - 2] (USIZE - 4) 1
        SOCKETMAP_SCAN_MAX := by
    rw [SocketMap.scan]
    norm_num [SOCKETMAP_SCAN_MAX, USIZE_MAX, USIZE]
  have s2 : SocketMap.scan [USIZE - 3, USIZE - 2] (USIZE - 4) 1
      SOCKETMAP_SCAN_MAX =
      SocketMap.scan [USIZE - 3, USIZE - 2] (USIZE - 4) 2
        (SOCKETMAP_SCAN_MAX - 1) := by
    rw [SocketMap.scan]
    norm_num [SOCKETMAP_SCAN_MAX, USIZE_MAX, USIZE]
  have s3 : SocketMap.scan [USIZE - 3, USIZE - 2] (USIZE - 4) 2
      (SOCKETMAP_SCAN_MAX - 1) = some (USIZE - 1) := by
    rw [SocketMap.scan]
    norm_num [SOCKETMAP_SCAN_MAX, USIZE_MAX, USIZE]
  refine ⟨?_, by norm_num [USIZE_MAX, USIZE], by norm_num [USIZE_MAX, USIZE],
    by norm_num [USIZE_MAX, USIZE]⟩
  rw [SocketMap.available_id_of_scan
    (by norm_num [SOCKETMAP_SCAN_MAX, USIZE_MAX, USIZE])
    (s1.trans (s2.trans s3))]
  norm_num [SOCKETMAP_SCAN_MAX, USIZE_MAX, USIZE]

/-! ### Event dispatch (`on_tcp_stream`, `on_tcp_listener`) -/

/-- `DispatcherAction`, the action a handler returns to the loop. -/
inductive DispatcherAction where
  | Continue
  | ChangeFlag (interest : Nat)
  | Dispose
  deriving DecidableEq, Repr

/-- The readiness flags and token of one mio `Event`. -/
structure Event where
  token : Nat
  is_readable : Bool
  is_writable : Bool
  is_error : Bool
  deriving DecidableEq, Repr

/-- The result of `TcpStream::take_error()`: `Ok(Some(err))`, `Ok(None)` or
`Err(err)`. -/
inductive TakeError where
  | okSome (e : Nat)
  | okNone
  | err (e : Nat)
  deriving DecidableEq, Repr

/-- The `TcpStreamListener` trait: three callbacks, each transforming the
handler's own state and returning a `DispatcherAction`. -/
structure TcpStreamListener (σ : Type) where
  on_ready_to_read : σ → σ × DispatcherAction
  on_ready_to_write : σ → σ × DispatcherAction
  on_error : σ → Nat → σ × DispatcherAction

/-- The `TcpListenerListener` trait. -/
structure TcpListenerListener (σ : Type) where
  on_accept : σ → Nat → Nat → σ × DispatcherAction
  on_error : σ → Nat → σ × DispatcherAction

/-- Which handler callback an event dispatch invoked. -/
inductive CallbackKind where
  | onReadyToRead
  | onReadyToWrite
  | onStreamError (e : Nat)
  | onAccept (stream address : Nat)
  deriving DecidableEq, Repr

/-- One observable step of an event dispatch: a callback invocation or the
application of a returned action (`PollingLoop::action`). -/
inductive TraceItem where
  | invoked (c : CallbackKind)
  | applied (id : Nat) (a : DispatcherAction)
  deriving DecidableEq, Repr

/-- `PollingLoop::action`, run while this thread holds the guard of
`match socket.lock()?` for the socket registered under `lockedId` (the
scrutinee temporary lives for the whole `match` arm in `start`, so the lock
is held throughout the dispatch).  `Continue` does nothing and `ChangeFlag`
reregisters, both returning with the id set unchanged; `Dispose` goes
through `close`, which removes the map entry and then calls
`socket.lock().unwrap()` on that entry's mutex to deregister it — when that
mutex is the one already held, the second `lock()` on the same thread never
returns (std `Mutex` self-lock: panic or deadlock), modelled as `none`; a
missing id makes `close` a no-op. -/
def PollingLoop.applyAction (ids : List Nat) (lockedId : Option Nat)
    (id : Nat) : DispatcherAction → Option (List Nat)
  | .Continue => some ids
  | .ChangeFlag _ => some ids
  | .Dispose =>
    if id ∈ ids then
      if lockedId = some id then none
      else some (ids.filter (fun x => x != id))
    else some ids

/-- `PollingLoop::on_tcp_stream`: three sequential `if` blocks — readable,
writable, error — each invoking its callback on the current handler state
and then applying the returned action via `self.action` with the event's
own token, while the dispatch loop holds that socket's mutex.  If an action
application never returns (a `Dispose` of the held socket self-locks in
`close`), the remaining blocks never run.  Returns the trace of completed
steps in execution order, paired with the final handler state and id set —
`none` when the dispatch never returns. -/
def PollingLoop.on_tcp_stream {σ : Type} (ev : Event)
    (l : TcpStreamListener σ) (tk : TakeError) (s : σ) (ids : List Nat) :
    List TraceItem × Option (σ × List Nat) :=
  let step1 : List TraceItem × Option (σ × List Nat) :=
    if ev.is_readable then
      let r := l.on_ready_to_read s
      match PollingLoop.applyAction ids (some ev.token) ev.token r.2 with
      | some ids1 =>
        ([TraceItem.invoked .onReadyToRead, TraceItem.applied ev.token r.2],
         some (r.1, ids1))
      | none => ([TraceItem.invoked .onReadyToRead], none)
    else ([], some (s, ids))
  match step1 with
  | (t1, none) => (t1, none)
  | (t1, some (s1, ids1)) =>
    let step2 : List TraceItem × Option (σ × List Nat) :=
      if ev.is_writable then
        let r := l.on_ready_to_write s1
        match PollingLoop.applyAction ids1 (some ev.token) ev.token r.2 with
        | some ids2 =>
          ([TraceItem.invoked .onReadyToWrite,
            TraceItem.applied ev.token r.2], some (r.1, ids2))
        | none => ([TraceItem.invoked .onReadyToWrite], none)
      else ([], some (s1, ids1))
    match step2 with
    | (t2, none) => (t1 ++ t2, none)
    | (t2, some (s2, ids2)) =>
      let step3 : List TraceItem × Option (σ × List Nat) :=
        if ev.is_error then
          match tk with
          | .okSome e =>
            let r := l.on_error s2 e
            match PollingLoop.applyAction ids2 (some ev.token) ev.token r.2
              with
            | some ids3 =>
              ([TraceItem.invoked (.onStreamError e),
                TraceItem.applied ev.token r.2], some (r.1, ids3))
            | none => ([TraceItem.invoked (.onStreamError e)], none)
          | .okNone =>
            match PollingLoop.applyAction ids2 (some ev.token) ev.token
              .Continue with
            | some ids3 =>
              ([TraceItem.applied ev.token DispatcherAction.Continue],
               some (s2, ids3))
            | none => ([], none)
          | .err e =>
            let r := l.on_error s2 e
            match PollingLoop.applyAction ids2 (some ev.token) ev.token r.2
              with
            | some ids3 =>
              ([TraceItem.invoked (.onStreamError e),
                TraceItem.applied ev.token r.2], some (r.1, ids3))
            | none => ([TraceItem.invoked (.onStreamError e)], none)
        else ([], some (s2, ids2))
      (t1 ++ t2 ++ step3.1, step3.2)

/-- A stream handler whose read callback asks for disposal while its write
callback continues. -/
def disposeOnReadListener : TcpStreamListener Unit :=
  { on_ready_to_read := fun _ => ((), .Dispose),
    on_ready_to_write := fun _ => ((), .Continue),
    on_error := fun _ _ => ((), .Continue) }

/-- A stream handler all of whose callbacks continue. -/
def continueListener : TcpStreamListener Unit :=
  { on_ready_to_read := fun _ => ((), .Continue),
    on_ready_to_write := fun _ => ((), .Continue),
    on_error := fun _ _ => ((), .Continue) }

/-- An event that is simultaneously readable and writable. -/
def readWriteEvent : Event :=
  { token := 5, is_readable := true, is_writable := true,
    is_error := false }

/-- C6 (code-bug evidence): on a readable-and-writable event whose read
callback returns `Dispose`, applying that action self-locks the socket's
mutex inside `close` and never returns: the dispatch hangs (or panics)
after invoking `on_ready_to_read` — the `Dispose` is never completed (no
deregistration) and `on_ready_to_write` is never invoked, so neither the
claimed orderly skip nor the claimed action application happens.  On the
non-disposing path the claimed order does hold: read callback, its action
applied, then write callback, its action applied. -/
theorem C6_dispose_never_returns :
    PollingLoop.on_tcp_stream readWriteEvent disposeOnReadListener .okNone
      () [5] = ([TraceItem.invoked .onReadyToRead], none) ∧
    TraceItem.invoked .onReadyToWrite ∉
      (PollingLoop.on_tcp_stream readWriteEvent disposeOnReadListener
        .okNone () [5]).1 ∧
    TraceItem.applied 5 DispatcherAction.Dispose ∉
      (PollingLoop.on_tcp_stream readWriteEvent disposeOnReadListener
        .okNone () [5]).1 ∧
    PollingLoop.on_tcp_stream readWriteEvent continueListener .okNone ()
      [5] =
      ([TraceItem.invoked .onReadyToRead,
        TraceItem.applied 5 DispatcherAction.Continue,
        TraceItem.invoked .onReadyToWrite,
        TraceItem.applied 5 DispatcherAction.Continue], some ((), [5])) := by
  refine ⟨rfl, ?_, ?_, rfl⟩ <;> decide

/-- The outcome of the non-blocking `accept()` call on a listener. -/
inductive AcceptResult where
  | success (stream address : Nat)
  | failure (e : Nat)
  deriving DecidableEq, Repr

/-- `PollingLoop::on_tcp_listener`: on a readable event the loop runs
`listener.accept().unwrap()`.  On `Ok`, `on_accept(stream, address)` is
invoked and its action applied to the listener's own registration
(`event.token()`), under the held listener-socket lock; on `Err`, the
`unwrap()` panics and the handler's `on_error` is never invoked.  `none`
models a dispatch that never returns (the accept panic, or a self-locking
`Dispose` in the action application). -/
def PollingLoop.on_tcp_listener {σ : Type} (ev : Event)
    (accept : AcceptResult) (l : TcpListenerListener σ) (s : σ)
    (ids : List Nat) : Option (σ × List Nat × List TraceItem) :=
  if ev.is_readable then
    match accept with
    | .success stream address =>
      let r := l.on_accept s stream address
      match PollingLoop.applyAction ids (some ev.token) ev.token r.2 with
      | some ids1 =>
        some (r.1, ids1,
          [TraceItem.invoked (.onAccept stream address),
           TraceItem.applied ev.token r.2])
      | none => none
    | .failure _ => none
  else some (s, ids, [])

/-- A readable listener event. -/
def acceptEvent : Event :=
  { token := 7, is_readable := true, is_writable := false,
    is_error := false }

/-- A listener handler whose `on_error` would ask for disposal — it is
never consulted by the dispatch code. -/
def acceptHandler : TcpListenerListener Unit :=
  { on_accept := fun _ _ _ => ((), .Continue),
    on_error := fun _ _ => ((), .Dispose) }

/-- C7 (code-bug evidence): on a readable listener event, a successful
accept invokes `on_accept` with the new stream and peer address and applies
the returned action to the listener's own registration, as claimed; but a
failed accept makes the loop panic through `accept().unwrap()` — `on_error`
is never invoked and no action is applied. -/
theorem C7_listener_accept_failure_panics :
    PollingLoop.on_tcp_listener acceptEvent (.failure 13) acceptHandler ()
      [7] = none ∧
    PollingLoop.on_tcp_listener acceptEvent (.success 3 4) acceptHandler ()
      [7] =
      some ((), [7], [.invoked (.onAccept 3 4), .applied 7 .Continue]) :=
  ⟨rfl, rfl⟩

end Bumblebees
